import Mathlib

/-!
Verification of the credential-store subsystem (`auth.py`) of the
Symptom Explorer repository.

The SQLite-backed user table is modelled as an in-memory list of account
rows; every store operation from `auth.py` is translated into a pure
function over that state.  SQLite specifics are rendered as follows:

* `INSERT` with the `UNIQUE` constraint on `username` either appends a row
  or fails with `DbError.integrityError` when a row with that username
  already exists (sqlite3.IntegrityError);
* `DELETE`/`UPDATE` row counts become booleans / filtered lists;
* `ORDER BY is_admin DESC, username ASC` becomes sorting by the
  corresponding total order;
* `datetime('now')` timestamps and the random salts drawn by
  `secrets.token_bytes(16)` are passed in explicitly as parameters;
* the external KDF `hashlib.pbkdf2_hmac("sha256", pw, salt, 200000)` is an
  abstract parameter `hash : HashFn` producing a byte-sequence digest, so
  every theorem holds for an arbitrary digest function (collision facts
  needed by a theorem appear as explicit hypotheses);
* `secrets.compare_digest` is modelled by its constant-time algorithm: a
  fold over all byte pairs accumulating xor differences with `|||`, with
  no early exit.

Strings are Lean `String`s; Python `str.strip()` is `strip` below
(ASCII whitespace), and the regex character classes of the password
policy are the corresponding ASCII character predicates.
-/

namespace Hazelnut

/-- A byte sequence (salt or digest) as a list of byte values. -/
abbrev Digest := List Nat

/-- The type of the external key-derivation function
`hashlib.pbkdf2_hmac("sha256", password.encode(), salt, 200000)`:
from a plaintext password and a salt to a digest.  Salts are abstracted
as natural numbers naming the random 16-byte values. -/
abbrev HashFn := String → Nat → Digest

/-- Python exceptions raised by the store operations:
`ValueError(msg)` and `sqlite3.IntegrityError` (UNIQUE violation). -/
inductive DbError where
  | valueError (msg : String)
  | integrityError
  deriving DecidableEq, Repr

/-- A persisted row of the `users` table. -/
structure Account where
  id : Nat
  username : String
  salt : Nat
  pw_hash : Digest
  is_admin : Bool
  created_at : Nat
  deriving DecidableEq, Repr

/-- The `User` dataclass: the identity returned by `authenticate` and
`get_user_by_username`. -/
structure User where
  id : Nat
  username : String
  is_admin : Bool
  deriving DecidableEq, Repr

/-- The database state: the rows of the `users` table together with the
next AUTOINCREMENT id. -/
structure DB where
  rows : List Account
  next_id : Nat
  deriving DecidableEq, Repr

instance {ε α : Type} [DecidableEq ε] [DecidableEq α] : DecidableEq (Except ε α)
  | .error e, .error f =>
    if h : e = f then .isTrue (by rw [h]) else .isFalse (by simp [h])
  | .error _, .ok _ => .isFalse (by simp)
  | .ok _, .error _ => .isFalse (by simp)
  | .ok a, .ok b =>
    if h : a = b then .isTrue (by rw [h]) else .isFalse (by simp [h])

/-- Python `str.strip()`: remove leading and trailing whitespace. -/
def strip (s : String) : String :=
  ⟨((s.data.dropWhile Char.isWhitespace).reverse.dropWhile Char.isWhitespace).reverse⟩

/-- `_hash_password`: rejects the empty password with a `ValueError`,
otherwise applies the KDF.  (The `not isinstance(password, str)` guard has
no counterpart here, as `password : String` by typing.) -/
def hash_password (hash : HashFn) (password : String) (salt : Nat) :
    Except DbError Digest :=
  if password = "" then
    .error (.valueError "Password must be a non-empty string.")
  else
    .ok (hash password salt)

/-- The regex class `[^\w\s]` of `validate_password_rules`: a character
that is neither alphanumeric, nor an underscore, nor whitespace. -/
def isSpecial (c : Char) : Bool :=
  !(c.isAlphanum || c == '_' || c.isWhitespace)

/-- `validate_password_rules`: complexity rules, checked in order, first
failure wins. -/
def validate_password_rules (password : String) : Bool × String :=
  if password.length < 8 then
    (false, "Password must be at least 8 characters.")
  else if !password.data.any Char.isLower then
    (false, "Password must contain at least one lowercase letter.")
  else if !password.data.any Char.isUpper then
    (false, "Password must contain at least one uppercase letter.")
  else if !password.data.any Char.isDigit then
    (false, "Password must contain at least one digit.")
  else if !password.data.any isSpecial then
    (false, "Password must contain at least one special character (e.g., !@#$%).")
  else
    (true, "OK")

/-- `create_user`: trims the username and rejects an empty result; with
`enforce_rules`, rejects a password failing the policy; hashes the
password with a fresh `salt` (which may itself raise on an empty
password); then inserts, failing with an integrity error when the
username already exists. -/
def create_user (hash : HashFn) (db : DB) (username password : String)
    (is_admin : Bool) (salt now : Nat) (enforce_rules : Bool := true) :
    Except DbError DB :=
  let u := strip username
  if u = "" then
    .error (.valueError "Username cannot be empty.")
  else if enforce_rules && !(validate_password_rules password).1 then
    .error (.valueError (validate_password_rules password).2)
  else do
    let pw_hash ← hash_password hash password salt
    if db.rows.any (fun a => a.username == u) then
      .error .integrityError
    else
      .ok ⟨db.rows ++ [⟨db.next_id, u, salt, pw_hash, is_admin, now⟩],
           db.next_id + 1⟩

/-- `delete_user`: deletes the rows matching the trimmed username and
reports whether any row was deleted; an empty trimmed username returns
`false` without touching the table. -/
def delete_user (db : DB) (username : String) : Bool × DB :=
  let u := strip username
  if u = "" then
    (false, db)
  else
    let remaining := db.rows.filter (fun a => a.username != u)
    (decide (remaining.length < db.rows.length), ⟨remaining, db.next_id⟩)

/-- The total order of `ORDER BY is_admin DESC, username ASC`. -/
def userOrd (a b : Account) : Prop :=
  b.is_admin < a.is_admin ∨ (a.is_admin = b.is_admin ∧ a.username ≤ b.username)

instance : DecidableRel userOrd := fun a b => by
  unfold userOrd; infer_instance

/-- `list_users`: the `(username, is_admin)` projection of the rows,
sorted admins-first then alphabetically. -/
def list_users (db : DB) : List (String × Bool) :=
  (List.insertionSort userOrd db.rows).map (fun a => (a.username, a.is_admin))

/-- `get_user_by_username`: `None` on an empty trimmed username,
otherwise the `User` projection of the row with that exact username. -/
def get_user_by_username (db : DB) (username : String) : Option User :=
  let u := strip username
  if u = "" then
    none
  else
    match db.rows.find? (fun a => a.username == u) with
    | none => none
    | some a => some ⟨a.id, a.username, a.is_admin⟩

/-- `secrets.compare_digest`: constant-time comparison of two byte
sequences — every byte pair is examined, the xor differences are
accumulated with `|||`, and there is no early exit. -/
def compare_digest (a b : Digest) : Bool :=
  (a.length == b.length) &&
    ((a.zip b).foldl (fun acc p => acc ||| (p.1 ^^^ p.2)) 0 == 0)

/-- `authenticate`: looks up the trimmed username; if absent returns
`none`; otherwise hashes the supplied password with the stored salt
(returning `none` if the hasher raises) and compares digests in constant
time, returning the `User` projection on a match. -/
def authenticate (hash : HashFn) (db : DB) (username password : String) :
    Option User :=
  let u := strip username
  if u = "" then
    none
  else
    match db.rows.find? (fun a => a.username == u) with
    | none => none
    | some row =>
      match hash_password hash password row.salt with
      | .error _ => none
      | .ok candidate =>
        if compare_digest candidate row.pw_hash then
          some ⟨row.id, row.username, row.is_admin⟩
        else
          none

/-- `set_password`: returns `false` on an empty trimmed username;
validates the policy (raising a `ValueError` on failure); otherwise
replaces salt and hash together on every matching row and reports
whether a row was updated. -/
def set_password (hash : HashFn) (db : DB) (username new_password : String)
    (salt : Nat) : Except DbError (Bool × DB) :=
  let u := strip username
  if u = "" then
    .ok (false, db)
  else if !(validate_password_rules new_password).1 then
    .error (.valueError (validate_password_rules new_password).2)
  else do
    let pw_hash ← hash_password hash new_password salt
    .ok (db.rows.any (fun a => a.username == u),
         ⟨db.rows.map (fun a =>
            if a.username == u then ⟨a.id, a.username, salt, pw_hash, a.is_admin, a.created_at⟩ else a),
          db.next_id⟩)

/-- The fixed demo accounts seeded by `init_db`. -/
def seed_users : List (String × String × Bool) :=
  [("admin", "Admin123!", true),
   ("student1", "Student123!", false),
   ("student2", "Student123!", false),
   ("guest", "Guest123!", false)]

/-- The seeding loop of `init_db`: for each seed tuple, create the
account when `get_user_by_username` does not find it, drawing the next
salt from the stream `salts` on each creation. -/
def seed_loop (hash : HashFn) (salts : Nat → Nat) (now : Nat) :
    List (String × String × Bool) → Nat → DB → Except DbError DB
  | [], _, db => .ok db
  | (u, p, adm) :: rest, i, db =>
    match get_user_by_username db u with
    | some _ => seed_loop hash salts now rest i db
    | none => do
      let db1 ← create_user hash db u p adm (salts i) now false
      seed_loop hash salts now rest (i + 1) db1

/-- `init_db`: `CREATE TABLE IF NOT EXISTS` is a no-op on the modelled
state (the table always exists as `db.rows`); the seeding pass then
creates any missing demo account. -/
def init_db (hash : HashFn) (db : DB) (salts : Nat → Nat) (now : Nat) :
    Except DbError DB :=
  seed_loop hash salts now seed_users 0 db

/-- Well-formedness of a reachable store: every row's username is
non-empty, already trimmed, and distinct from every other row's. -/
def WF (db : DB) : Prop :=
  (∀ a ∈ db.rows, strip a.username = a.username ∧ a.username ≠ "") ∧
    db.rows.Pairwise (fun a b => a.username ≠ b.username)

/-- A concrete digest function used to instantiate the abstract KDF in
witnesses: it tags the salt onto the password's character codes and is
therefore injective in the password for each fixed salt. -/
def demoHash : HashFn := fun p s => s :: p.data.map Char.toNat

/-- A concrete one-account store (the seeded admin account under
`demoHash`), used by witnesses. -/
def dbAdmin : DB := ⟨[⟨1, "admin", 5, demoHash "Admin123!" 5, true, 0⟩], 2⟩

/-! ### Helper lemmas -/

theorem or_eq_zero_iff (x y : Nat) : x ||| y = 0 ↔ x = 0 ∧ y = 0 := by
  constructor
  · intro h
    refine ⟨Nat.eq_of_testBit_eq fun i => ?_, Nat.eq_of_testBit_eq fun i => ?_⟩ <;>
    · have hb := congrArg (fun n => Nat.testBit n i) h
      simp only [Nat.testBit_or, Nat.zero_testBit, Bool.or_eq_false_iff] at hb
      simp [hb.1, hb.2]
  · rintro ⟨rfl, rfl⟩; rfl

theorem foldl_or_xor_eq_zero (l : List (Nat × Nat)) (acc : Nat) :
    l.foldl (fun acc p => acc ||| (p.1 ^^^ p.2)) acc = 0 ↔
      acc = 0 ∧ ∀ p ∈ l, p.1 = p.2 := by
  induction l generalizing acc with
  | nil => simp
  | cons q l ih =>
    simp only [List.foldl_cons, ih, or_eq_zero_iff, Nat.xor_eq_zero, List.mem_cons]
    constructor
    · rintro ⟨⟨h1, h2⟩, h3⟩
      exact ⟨h1, fun p hp => hp.elim (fun e => e ▸ h2) (h3 p)⟩
    · rintro ⟨h1, h2⟩
      exact ⟨⟨h1, h2 q (Or.inl rfl)⟩, fun p hp => h2 p (Or.inr hp)⟩

theorem zip_pointwise_eq : ∀ (a b : List Nat), a.length = b.length →
    ((∀ p ∈ a.zip b, p.1 = p.2) ↔ a = b)
  | [], [], _ => by simp
  | [], _ :: _, h => by simp at h
  | _ :: _, [], h => by simp at h
  | x :: a, y :: b, h => by
    have ih := zip_pointwise_eq a b (by simpa using h)
    simp only [List.zip_cons_cons, List.mem_cons, List.cons.injEq]
    constructor
    · intro h2
      exact ⟨h2 (x, y) (Or.inl rfl), ih.1 fun p hp => h2 p (Or.inr hp)⟩
    · rintro ⟨rfl, rfl⟩
      exact fun p hp => hp.elim (fun e => e ▸ rfl) (fun hp2 => (ih.2 rfl) p hp2)

/-- `secrets.compare_digest` agrees extensionally with equality of byte
sequences, even though its algorithm examines every byte pair. -/
theorem compare_digest_eq_true_iff (a b : Digest) :
    compare_digest a b = true ↔ a = b := by
  simp only [compare_digest, Bool.and_eq_true, beq_iff_eq, foldl_or_xor_eq_zero, true_and]
  constructor
  · rintro ⟨hlen, hpt⟩
    exact (zip_pointwise_eq a b hlen).1 hpt
  · rintro rfl
    exact ⟨rfl, (zip_pointwise_eq a a rfl).2 rfl⟩

theorem compare_digest_self (a : Digest) : compare_digest a a = true :=
  (compare_digest_eq_true_iff a a).2 rfl

theorem validate_true_iff (p : String) :
    (validate_password_rules p).1 = true ↔
      8 ≤ p.length ∧ (∃ c ∈ p.data, c.isLower) ∧ (∃ c ∈ p.data, c.isUpper) ∧
        (∃ c ∈ p.data, c.isDigit) ∧ (∃ c ∈ p.data, isSpecial c) := by
  simp only [validate_password_rules]
  split_ifs with h1 h2 h3 h4 h5 <;> simp_all [List.any_eq_true]

theorem validate_len_iff (p : String) :
    validate_password_rules p = (false, "Password must be at least 8 characters.") ↔
      p.length < 8 := by
  simp only [validate_password_rules]
  split_ifs with h1 h2 h3 h4 h5 <;> simp_all [List.any_eq_true]

theorem validate_low_iff (p : String) :
    validate_password_rules p =
        (false, "Password must contain at least one lowercase letter.") ↔
      8 ≤ p.length ∧ ∀ c ∈ p.data, ¬c.isLower := by
  simp only [validate_password_rules]
  split_ifs with h1 h2 h3 h4 h5 <;> simp_all [List.any_eq_true]

theorem validate_up_iff (p : String) :
    validate_password_rules p =
        (false, "Password must contain at least one uppercase letter.") ↔
      8 ≤ p.length ∧ (∃ c ∈ p.data, c.isLower) ∧ ∀ c ∈ p.data, ¬c.isUpper := by
  simp only [validate_password_rules]
  split_ifs with h1 h2 h3 h4 h5 <;> simp_all [List.any_eq_true]

theorem validate_digit_iff (p : String) :
    validate_password_rules p =
        (false, "Password must contain at least one digit.") ↔
      8 ≤ p.length ∧ (∃ c ∈ p.data, c.isLower) ∧ (∃ c ∈ p.data, c.isUpper) ∧
        ∀ c ∈ p.data, ¬c.isDigit := by
  simp only [validate_password_rules]
  split_ifs with h1 h2 h3 h4 h5 <;> simp_all [List.any_eq_true]

theorem validate_special_iff (p : String) :
    validate_password_rules p =
        (false, "Password must contain at least one special character (e.g., !@#$%).") ↔
      8 ≤ p.length ∧ (∃ c ∈ p.data, c.isLower) ∧ (∃ c ∈ p.data, c.isUpper) ∧
        (∃ c ∈ p.data, c.isDigit) ∧ ∀ c ∈ p.data, ¬isSpecial c := by
  simp only [validate_password_rules]
  split_ifs with h1 h2 h3 h4 h5 <;> simp_all [List.any_eq_true]

/-- A password accepted by the policy is non-empty (its length is at
least 8), so `_hash_password` accepts it. -/
theorem validate_true_ne_empty {p : String}
    (h : (validate_password_rules p).1 = true) : p ≠ "" := by
  intro he
  have := ((validate_true_iff p).1 h).1
  rw [he] at this
  simp at this

theorem get_some_append {db db2 : DB} {u : String} {x : User}
    (hrows : ∃ ext, db2.rows = db.rows ++ ext)
    (h : get_user_by_username db u = some x) :
    get_user_by_username db2 u = some x := by
  obtain ⟨ext, hext⟩ := hrows
  by_cases he : strip u = ""
  · simp [get_user_by_username, he] at h
  · unfold get_user_by_username at h ⊢
    rw [if_neg he] at h ⊢
    cases hf : db.rows.find? (fun a => a.username == strip u) with
    | none => rw [hf] at h; simp at h
    | some a =>
      rw [hf] at h
      rw [hext, List.find?_append, hf]
      simpa using h

theorem get_none_find {db : DB} {u : String} (hne : strip u ≠ "")
    (h : get_user_by_username db u = none) :
    db.rows.find? (fun a => a.username == strip u) = none := by
  unfold get_user_by_username at h
  rw [if_neg hne] at h
  cases hf : db.rows.find? (fun a => a.username == strip u) with
  | none => rfl
  | some a => rw [hf] at h; simp at h

/-- A seed creation performed by `init_db` when the account is absent:
the row is appended and the account becomes visible. -/
theorem create_seed_ok (hash : HashFn) (db : DB) (u p : String) (adm : Bool)
    (salt now : Nat)
    (hne : strip u ≠ "") (hp : p ≠ "")
    (hfind : db.rows.find? (fun a => a.username == strip u) = none) :
    create_user hash db u p adm salt now false =
      .ok ⟨db.rows ++ [⟨db.next_id, strip u, salt, hash p salt, adm, now⟩],
           db.next_id + 1⟩ ∧
    get_user_by_username
        ⟨db.rows ++ [⟨db.next_id, strip u, salt, hash p salt, adm, now⟩],
         db.next_id + 1⟩ u =
      some ⟨db.next_id, strip u, adm⟩ := by
  have hany : db.rows.any (fun a => a.username == strip u) = false := by
    rw [List.any_eq_false]
    intro a ha
    exact List.find?_eq_none.1 hfind a ha
  constructor
  · simp only [create_user, if_neg hne, hash_password, if_neg hp, hany]
    rfl
  · unfold get_user_by_username
    rw [if_neg hne]
    simp only [List.find?_append, hfind, Option.none_or]
    simp [List.find?]

/-- The seeding loop always succeeds on seed tuples with a non-empty
trimmed username and a non-empty password, only appends rows, and leaves
every seeded account present. -/
theorem seed_loop_ok (hash : HashFn) (salts : Nat → Nat) (now : Nat)
    (seeds : List (String × String × Bool)) :
    ∀ (i : Nat) (db : DB),
      (∀ s ∈ seeds, strip s.1 ≠ "" ∧ s.2.1 ≠ "") →
      ∃ db1, seed_loop hash salts now seeds i db = .ok db1 ∧
        (∃ ext, db1.rows = db.rows ++ ext) ∧
        ∀ s ∈ seeds, get_user_by_username db1 s.1 ≠ none := by
  induction seeds with
  | nil =>
    intro i db _
    exact ⟨db, rfl, ⟨[], by simp⟩, by simp⟩
  | cons s rest ih =>
    obtain ⟨u, p, adm⟩ := s
    intro i db hcond
    obtain ⟨h1, h2⟩ := hcond (u, p, adm) (List.mem_cons_self _ _)
    cases hg : get_user_by_username db u with
    | some x =>
      obtain ⟨db1, hsl, hext, hall⟩ :=
        ih i db (fun t ht => hcond t (List.mem_cons_of_mem _ ht))
      refine ⟨db1, ?_, hext, ?_⟩
      · simp only [seed_loop, hg]
        exact hsl
      · intro t ht
        rcases List.mem_cons.1 ht with rfl | ht2
        · rw [get_some_append hext hg]
          simp
        · exact hall t ht2
    | none =>
      have hfind := get_none_find h1 hg
      obtain ⟨hcreate, hget⟩ :=
        create_seed_ok hash db u p adm (salts i) now h1 h2 hfind
      obtain ⟨db1, hsl, hext, hall⟩ :=
        ih (i + 1) ⟨db.rows ++ [⟨db.next_id, strip u, salts i, hash p (salts i), adm, now⟩],
          db.next_id + 1⟩ (fun t ht => hcond t (List.mem_cons_of_mem _ ht))
      refine ⟨db1, ?_, ?_, ?_⟩
      · simp only [seed_loop, hg, hcreate]
        exact hsl
      · obtain ⟨ext, he⟩ := hext
        exact ⟨[⟨db.next_id, strip u, salts i, hash p (salts i), adm, now⟩] ++ ext, by
          rw [he]; simp⟩
      · intro t ht
        rcases List.mem_cons.1 ht with rfl | ht2
        · rw [get_some_append hext hget]
          simp
        · exact hall t ht2

/-- The seeding loop is a no-op when every seeded account is already
present. -/
theorem seed_loop_noop (hash : HashFn) (salts : Nat → Nat) (now : Nat)
    (seeds : List (String × String × Bool)) :
    ∀ (i : Nat) (db : DB), (∀ s ∈ seeds, get_user_by_username db s.1 ≠ none) →
      seed_loop hash salts now seeds i db = .ok db := by
  induction seeds with
  | nil => intro i db _; rfl
  | cons s rest ih =>
    obtain ⟨u, p, adm⟩ := s
    intro i db h
    cases hg : get_user_by_username db u with
    | none => exact absurd hg (h (u, p, adm) (List.mem_cons_self _ _))
    | some x =>
      simp only [seed_loop, hg]
      exact ih i db (fun t ht => h t (List.mem_cons_of_mem _ ht))

instance : IsTotal Account userOrd := by
  constructor
  intro a b
  unfold userOrd
  cases ha : a.is_admin <;> cases hb : b.is_admin
  · rcases le_total a.username b.username with h | h
    · exact Or.inl (Or.inr ⟨rfl, h⟩)
    · exact Or.inr (Or.inr ⟨rfl, h⟩)
  · exact Or.inr (Or.inl (by decide))
  · exact Or.inl (Or.inl (by decide))
  · rcases le_total a.username b.username with h | h
    · exact Or.inl (Or.inr ⟨rfl, h⟩)
    · exact Or.inr (Or.inr ⟨rfl, h⟩)

instance : IsTrans Account userOrd := by
  constructor
  intro a b c hab hbc
  unfold userOrd at hab hbc ⊢
  rcases hab with h1 | ⟨h1, h1u⟩ <;> rcases hbc with h2 | ⟨h2, h2u⟩ <;>
    simp_all [Bool.lt_iff]
  exact le_trans h1u h2u

/-! ### Claim theorems -/

/-- C1: for every (username, password) pair accepted by `create_user`
(non-empty trimmed username, password passing the policy, username not
already present), a subsequent `authenticate(username, password)`
succeeds and returns an identity whose username and `is_admin` match
those given to create. -/
theorem create_then_authenticate (hash : HashFn) (db : DB) (username password : String)
    (adm : Bool) (salt now : Nat)
    (htrim : strip username = username) (hne : username ≠ "")
    (hpol : (validate_password_rules password).1 = true)
    (habsent : ∀ a ∈ db.rows, a.username ≠ username) :
    ∃ db1, create_user hash db username password adm salt now true = .ok db1 ∧
      authenticate hash db1 username password = some ⟨db.next_id, username, adm⟩ := by
  have hpw : password ≠ "" := validate_true_ne_empty hpol
  have hfind : db.rows.find? (fun a => a.username == username) = none := by
    simp only [List.find?_eq_none]
    intro a ha
    simp [habsent a ha]
  have hany : db.rows.any (fun a => a.username == username) = false := by
    simp only [List.any_eq_false]
    intro a ha
    simp [habsent a ha]
  refine ⟨⟨db.rows ++ [⟨db.next_id, username, salt, hash password salt, adm, now⟩],
           db.next_id + 1⟩, ?_, ?_⟩
  · simp only [create_user, htrim, if_neg hne, hpol, hash_password, if_neg hpw, hany]
    rfl
  · simp only [authenticate, htrim, if_neg hne, List.find?_append, hfind, Option.none_or]
    simp [List.find?, hash_password, hpw, compare_digest_self]

theorem create_then_authenticate_witness :
    ∃ db1, create_user demoHash ⟨[], 1⟩ "alice" "Valid123!" false 7 0 true = .ok db1 ∧
      authenticate demoHash db1 "alice" "Valid123!" = some ⟨1, "alice", false⟩ :=
  create_then_authenticate demoHash ⟨[], 1⟩ "alice" "Valid123!" false 7 0
    (by decide) (by decide) (by decide) (by decide)

/-- C2: a failed `authenticate` returns the identical absent outcome
(`none`) whether the username is unknown or the stored hash does not
match (including the hasher rejecting the supplied password), and the
comparison primitive on the known-username path, `compare_digest` — a
fold over all byte pairs with no early exit — agrees with equality of
digests. -/
theorem auth_failures_indistinguishable (hash : HashFn) (db db1 : DB)
    (u p u1 p1 : String) (row : Account)
    (hu : db.rows.find? (fun a => a.username == strip u) = none)
    (hw : db1.rows.find? (fun a => a.username == strip u1) = some row)
    (hbad : p1 = "" ∨ hash p1 row.salt ≠ row.pw_hash) :
    authenticate hash db u p = none ∧ authenticate hash db1 u1 p1 = none ∧
      authenticate hash db u p = authenticate hash db1 u1 p1 ∧
      (∀ a b : Digest, compare_digest a b = true ↔ a = b) := by
  have h1 : authenticate hash db u p = none := by
    by_cases he : strip u = ""
    · simp [authenticate, he]
    · simp [authenticate, he, hu]
  have h2 : authenticate hash db1 u1 p1 = none := by
    by_cases he : strip u1 = ""
    · simp [authenticate, he]
    · rcases hbad with hemp | hne
      · simp [authenticate, he, hw, hash_password, hemp]
      · have hcd : compare_digest (hash p1 row.salt) row.pw_hash = false := by
          rw [← Bool.not_eq_true, compare_digest_eq_true_iff]
          exact hne
        by_cases hpe : p1 = ""
        · simp [authenticate, he, hw, hash_password, hpe]
        · simp [authenticate, he, hw, hash_password, hpe, hcd]
  exact ⟨h1, h2, by rw [h1, h2], compare_digest_eq_true_iff⟩

theorem auth_failures_indistinguishable_witness :
    authenticate demoHash dbAdmin "ghost" "Admin123!" = none ∧
      authenticate demoHash dbAdmin "admin" "Wrong123!" = none ∧
      authenticate demoHash dbAdmin "ghost" "Admin123!" =
        authenticate demoHash dbAdmin "admin" "Wrong123!" ∧
      (∀ a b : Digest, compare_digest a b = true ↔ a = b) :=
  auth_failures_indistinguishable demoHash dbAdmin dbAdmin "ghost" "Admin123!"
    "admin" "Wrong123!" ⟨1, "admin", 5, demoHash "Admin123!" 5, true, 0⟩
    (by decide) (by decide) (Or.inr (by decide))

/-- C3 counterexample: the password "Abcdefg1_" satisfies the claim's
literal five rules — length at least 8, a lowercase letter, an uppercase
letter, a digit, and a character (the underscore) that is neither
alphanumeric nor whitespace — yet `validate_password_rules` rejects it
for a missing special character, because the code's regex class
`[^\w\s]` excludes the underscore (`\w` is `[A-Za-z0-9_]`). -/
theorem validate_underscore_cex :
    8 ≤ ("Abcdefg1_" : String).length ∧
      (∃ c ∈ ("Abcdefg1_" : String).data, c.isLower) ∧
      (∃ c ∈ ("Abcdefg1_" : String).data, c.isUpper) ∧
      (∃ c ∈ ("Abcdefg1_" : String).data, c.isDigit) ∧
      (∃ c ∈ ("Abcdefg1_" : String).data, ¬c.isAlphanum ∧ ¬c.isWhitespace) ∧
      validate_password_rules "Abcdefg1_" =
        (false, "Password must contain at least one special character (e.g., !@#$%).") := by
  decide

/-- C3 (amended): `validate_password_rules` checks the rules in order
with the first failure winning — length at least 8, then a lowercase
letter, an uppercase letter, a digit, and a character that is neither a
word character (alphanumeric or underscore) nor whitespace (the regex
class `[^\w\s]`, rendered by `isSpecial`) — returns `(true, reason)`
exactly when all five rules hold, accepts "Valid123!", and rejects
"short1!", "alllowercase1!", "NoDigits!" and "NoSpecial123" each for the
stated rule. -/
theorem validate_rules_full :
    (∀ p : String,
      ((validate_password_rules p).1 = true ↔
        8 ≤ p.length ∧ (∃ c ∈ p.data, c.isLower) ∧ (∃ c ∈ p.data, c.isUpper) ∧
          (∃ c ∈ p.data, c.isDigit) ∧ (∃ c ∈ p.data, isSpecial c)) ∧
      (validate_password_rules p = (false, "Password must be at least 8 characters.") ↔
        p.length < 8) ∧
      (validate_password_rules p =
          (false, "Password must contain at least one lowercase letter.") ↔
        8 ≤ p.length ∧ ∀ c ∈ p.data, ¬c.isLower) ∧
      (validate_password_rules p =
          (false, "Password must contain at least one uppercase letter.") ↔
        8 ≤ p.length ∧ (∃ c ∈ p.data, c.isLower) ∧ ∀ c ∈ p.data, ¬c.isUpper) ∧
      (validate_password_rules p = (false, "Password must contain at least one digit.") ↔
        8 ≤ p.length ∧ (∃ c ∈ p.data, c.isLower) ∧ (∃ c ∈ p.data, c.isUpper) ∧
          ∀ c ∈ p.data, ¬c.isDigit) ∧
      (validate_password_rules p =
          (false, "Password must contain at least one special character (e.g., !@#$%).") ↔
        8 ≤ p.length ∧ (∃ c ∈ p.data, c.isLower) ∧ (∃ c ∈ p.data, c.isUpper) ∧
          (∃ c ∈ p.data, c.isDigit) ∧ ∀ c ∈ p.data, ¬isSpecial c)) ∧
    validate_password_rules "Valid123!" = (true, "OK") ∧
    validate_password_rules "short1!" = (false, "Password must be at least 8 characters.") ∧
    validate_password_rules "alllowercase1!" =
      (false, "Password must contain at least one uppercase letter.") ∧
    validate_password_rules "NoDigits!" = (false, "Password must contain at least one digit.") ∧
    validate_password_rules "NoSpecial123" =
      (false, "Password must contain at least one special character (e.g., !@#$%).") :=
  ⟨fun p => ⟨validate_true_iff p, validate_len_iff p, validate_low_iff p,
    validate_up_iff p, validate_digit_iff p, validate_special_iff p⟩,
   by decide, by decide, by decide, by decide, by decide⟩

/-- C4 counterexample: with the account "admin" present, a second create
with the policy-violating password "x" fails with the policy
`ValueError`, not with the uniqueness error the claim demands for any
password. -/
theorem create_duplicate_policy_error :
    (∃ a ∈ dbAdmin.rows, a.username = "admin") ∧
    create_user demoHash dbAdmin "admin" "x" false 9 1 true =
      .error (.valueError "Password must be at least 8 characters.") ∧
    create_user demoHash dbAdmin "admin" "x" false 9 1 true ≠ .error .integrityError := by
  refine ⟨⟨⟨1, "admin", 5, demoHash "Admin123!" 5, true, 0⟩, by decide, rfl⟩, by decide, by decide⟩

/-- C4 (amended): in a state holding exactly one row for the trimmed
username, a second `create_user` with any policy-valid password fails
with the uniqueness error, and the store still contains exactly that
row, unchanged. -/
theorem create_duplicate_uniqueness (hash : HashFn) (db : DB) (u p : String)
    (adm : Bool) (salt now : Nat) (row : Account)
    (hne : strip u ≠ "")
    (hrow : db.rows.filter (fun a => a.username == strip u) = [row])
    (hpol : (validate_password_rules p).1 = true) :
    create_user hash db u p adm salt now true = .error .integrityError ∧
      db.rows.filter (fun a => a.username == strip u) = [row] := by
  have hpw : p ≠ "" := validate_true_ne_empty hpol
  have hmem : row ∈ db.rows.filter (fun a => a.username == strip u) := by
    rw [hrow]; exact List.mem_singleton.2 rfl
  rw [List.mem_filter] at hmem
  have hany : db.rows.any (fun a => a.username == strip u) = true :=
    List.any_eq_true.2 ⟨row, hmem.1, hmem.2⟩
  refine ⟨?_, hrow⟩
  simp only [create_user, if_neg hne, hpol, hash_password, if_neg hpw, hany]
  rfl

theorem create_duplicate_uniqueness_witness :
    create_user demoHash dbAdmin "admin" "Valid123!" false 9 1 true = .error .integrityError ∧
      dbAdmin.rows.filter (fun a => a.username == strip "admin") =
        [⟨1, "admin", 5, demoHash "Admin123!" 5, true, 0⟩] :=
  create_duplicate_uniqueness demoHash dbAdmin "admin" "Valid123!" false 9 1
    ⟨1, "admin", 5, demoHash "Admin123!" 5, true, 0⟩ (by decide) (by decide) (by decide)

/-- C5 counterexample: resetting an account to its current password
("Valid123!" both as oldpw and newpw) makes `set_password` return true,
yet `authenticate(u, oldpw)` still succeeds instead of failing, so the
claim is false when `newpw = oldpw`. -/
theorem set_password_same_password_cex :
    authenticate demoHash ⟨[⟨1, "u", 3, demoHash "Valid123!" 3, false, 0⟩], 2⟩
        "u" "Valid123!" = some ⟨1, "u", false⟩ ∧
      (validate_password_rules "Valid123!").1 = true ∧
      set_password demoHash ⟨[⟨1, "u", 3, demoHash "Valid123!" 3, false, 0⟩], 2⟩
          "u" "Valid123!" 9 =
        .ok (true, ⟨[⟨1, "u", 9, demoHash "Valid123!" 9, false, 0⟩], 2⟩) ∧
      authenticate demoHash ⟨[⟨1, "u", 9, demoHash "Valid123!" 9, false, 0⟩], 2⟩
          "u" "Valid123!" = some ⟨1, "u", false⟩ :=
  ⟨by decide, by decide, by decide, by decide⟩

/-- C5 (amended): for an existing account and a policy-valid new
password whose digest under the drawn salt differs from the old
password's (in particular whenever the passwords differ, the KDF being
collision-free in practice), `set_password` returns true, a subsequent
`authenticate` with the new password succeeds, `authenticate` with the
old password fails, and the matching row carries the freshly drawn salt
and the new hash, replaced together. -/
theorem set_password_roundtrip (hash : HashFn) (db : DB) (u oldpw newpw : String)
    (salt : Nat) (row : Account)
    (hne : strip u ≠ "")
    (hfind : db.rows.find? (fun a => a.username == strip u) = some row)
    (hpol : (validate_password_rules newpw).1 = true)
    (hdiff : hash oldpw salt ≠ hash newpw salt) :
    ∃ db1, set_password hash db u newpw salt = .ok (true, db1) ∧
      authenticate hash db1 u newpw = some ⟨row.id, row.username, row.is_admin⟩ ∧
      authenticate hash db1 u oldpw = none ∧
      db1.rows.find? (fun a => a.username == strip u) =
        some ⟨row.id, row.username, salt, hash newpw salt, row.is_admin, row.created_at⟩ := by
  have hpw : newpw ≠ "" := validate_true_ne_empty hpol
  have hprow := List.find?_some hfind
  have hmem := List.mem_of_find?_eq_some hfind
  have hany : db.rows.any (fun a => a.username == strip u) = true :=
    List.any_eq_true.2 ⟨row, hmem, hprow⟩
  set f : Account → Account := fun a =>
    if a.username == strip u then
      ⟨a.id, a.username, salt, hash newpw salt, a.is_admin, a.created_at⟩
    else a
  have hpf : ((fun a : Account => a.username == strip u) ∘ f) =
      (fun a : Account => a.username == strip u) := by
    funext a
    by_cases h : a.username = strip u <;> simp [f, h]
  have hfrow : f row =
      ⟨row.id, row.username, salt, hash newpw salt, row.is_admin, row.created_at⟩ := by
    simp only [f]
    rw [if_pos hprow]
  have hfind1 : (db.rows.map f).find? (fun a => a.username == strip u) =
      some ⟨row.id, row.username, salt, hash newpw salt, row.is_admin, row.created_at⟩ := by
    rw [List.find?_map, hpf, hfind]
    simp only [Option.map]
    rw [hfrow]
  refine ⟨⟨db.rows.map f, db.next_id⟩, ?_, ?_, ?_, ?_⟩
  · simp only [set_password, if_neg hne, hpol, hash_password, if_neg hpw, hany]
    rfl
  · simp only [authenticate, if_neg hne, hfind1, hash_password, if_neg hpw]
    simp [compare_digest_self]
  · by_cases hop : oldpw = ""
    · simp [authenticate, hne, hfind1, hash_password, hop]
    · have hcd : compare_digest (hash oldpw salt) (hash newpw salt) = false := by
        rw [← Bool.not_eq_true, compare_digest_eq_true_iff]
        simpa using hdiff
      simp only [authenticate, if_neg hne, hfind1, hash_password, if_neg hop]
      simp [hcd]
  · exact hfind1

theorem set_password_roundtrip_witness :
    ∃ db1, set_password demoHash dbAdmin "admin" "NewPass1!" 9 = .ok (true, db1) ∧
      authenticate demoHash db1 "admin" "NewPass1!" = some ⟨1, "admin", true⟩ ∧
      authenticate demoHash db1 "admin" "Admin123!" = none ∧
      db1.rows.find? (fun a => a.username == strip "admin") =
        some ⟨1, "admin", 9, demoHash "NewPass1!" 9, true, 0⟩ :=
  set_password_roundtrip demoHash dbAdmin "admin" "Admin123!" "NewPass1!" 9
    ⟨1, "admin", 5, demoHash "Admin123!" 5, true, 0⟩
    (by decide) (by decide) (by decide) (by decide)

/-- C6: `init_db` is idempotent from any state — the first run succeeds
and only appends rows (never altering or resetting existing ones), and a
second run returns exactly the same table contents with no error and no
duplicate seed rows. -/
theorem init_db_idempotent (hash : HashFn) (db : DB) (s1 s2 : Nat → Nat) (t1 t2 : Nat) :
    ∃ db1, init_db hash db s1 t1 = .ok db1 ∧ init_db hash db1 s2 t2 = .ok db1 ∧
      ∃ ext, db1.rows = db.rows ++ ext := by
  obtain ⟨db1, hh1, hext, hall⟩ := seed_loop_ok hash s1 t1 seed_users 0 db (by decide)
  exact ⟨db1, hh1, seed_loop_noop hash s2 t2 seed_users 0 db1 hall, hext⟩

/-- C7: on a well-formed store, `delete_user` removes exactly the row
matching the trimmed username, returns whether a row was removed (false
when none matches), and leaves all other accounts unchanged; it is a
total function, so it never raises. -/
theorem delete_user_spec (db : DB) (u : String) (hwf : WF db) :
    ((delete_user db u).1 = true ↔ ∃ a ∈ db.rows, a.username = strip u) ∧
      (delete_user db u).2.rows = db.rows.filter (fun a => a.username != strip u) ∧
      (delete_user db u).2.next_id = db.next_id := by
  by_cases he : strip u = ""
  · have hd : delete_user db u = (false, db) := by
      simp [delete_user, he]
    have hall : ∀ a ∈ db.rows, (a.username != strip u) = true := by
      intro a ha
      have := (hwf.1 a ha).2
      simp [he, this]
    rw [hd]
    refine ⟨?_, ?_, rfl⟩
    · constructor
      · intro h; simp at h
      · rintro ⟨a, ha, hu⟩
        exact absurd (he ▸ hu) (hwf.1 a ha).2
    · exact ((List.filter_eq_self).2 hall).symm
  · have hd : delete_user db u =
        (decide ((db.rows.filter (fun a => a.username != strip u)).length < db.rows.length),
         ⟨db.rows.filter (fun a => a.username != strip u), db.next_id⟩) := by
      simp [delete_user, he]
    rw [hd]
    refine ⟨?_, rfl, rfl⟩
    simp only [decide_eq_true_eq]
    rw [List.length_filter_lt_length_iff_exists]
    constructor
    · rintro ⟨a, ha, hpa⟩
      refine ⟨a, ha, ?_⟩
      simpa using hpa
    · rintro ⟨a, ha, hpa⟩
      refine ⟨a, ha, ?_⟩
      simpa using hpa

theorem delete_user_spec_witness :
    ((delete_user dbAdmin "ghost").1 = true ↔
        ∃ a ∈ dbAdmin.rows, a.username = strip "ghost") ∧
      (delete_user dbAdmin "ghost").2.rows =
        dbAdmin.rows.filter (fun a => a.username != strip "ghost") ∧
      (delete_user dbAdmin "ghost").2.next_id = dbAdmin.next_id :=
  delete_user_spec dbAdmin "ghost" (by constructor <;> decide)

/-- C8: `list_users` returns the (username, is_admin) pairs of the store
as a permutation of the rows, sorted with admin accounts first and then
alphabetically by username — a deterministic ordering, total on a store
with unique usernames. -/
theorem list_users_ordered (db : DB) :
    (list_users db).Perm (db.rows.map fun a => (a.username, a.is_admin)) ∧
      (list_users db).Sorted
        (fun p q : String × Bool => q.2 < p.2 ∨ (p.2 = q.2 ∧ p.1 ≤ q.1)) := by
  constructor
  · exact List.Perm.map _ (List.perm_insertionSort userOrd db.rows)
  · exact List.Pairwise.map _ (fun a b h => h)
      (List.sorted_insertionSort userOrd db.rows)

/-- C9: `authenticate` never raises on degenerate input — an empty or
whitespace-only username, or an empty password against an existing
account, both return `none` (the hasher's rejection is caught). -/
theorem authenticate_degenerate_total (hash : HashFn) (db : DB) (u p : String) :
    (strip u = "" → authenticate hash db u p = none) ∧
      (p = "" → authenticate hash db u p = none) := by
  constructor
  · intro h
    simp [authenticate, h]
  · intro h
    by_cases he : strip u = ""
    · simp [authenticate, he]
    · unfold authenticate
      rw [if_neg he]
      cases hf : db.rows.find? (fun a => a.username == strip u) with
      | none => rfl
      | some row => simp [hash_password, h]

theorem authenticate_degenerate_total_witness :
    authenticate demoHash dbAdmin "   " "Admin123!" = none ∧
      authenticate demoHash dbAdmin "admin" "" = none :=
  ⟨(authenticate_degenerate_total demoHash dbAdmin "   " "Admin123!").1 (by decide),
   (authenticate_degenerate_total demoHash dbAdmin "admin" "").2 rfl⟩

/-- C10 counterexample: for a whitespace-only username (which matches no
row) and a policy-violating password, `set_password` returns
`.ok (false, db)` instead of raising the policy error, because the
empty-username check precedes the policy check. -/
theorem set_password_empty_username_cex :
    (∀ a ∈ dbAdmin.rows, a.username ≠ "") ∧
      (validate_password_rules "x").1 = false ∧
      set_password demoHash dbAdmin "  " "x" 4 = .ok (false, dbAdmin) :=
  ⟨by decide, by decide, by decide⟩

/-- C10 (amended): for every username that is non-empty after trimming
and has no matching row, `set_password` with a policy-violating password
raises the policy error instead of returning false, while with a
policy-valid password it returns false and leaves the store unchanged. -/
theorem set_password_policy_before_existence (hash : HashFn) (db : DB)
    (u p : String) (salt : Nat)
    (hne : strip u ≠ "")
    (habsent : ∀ a ∈ db.rows, a.username ≠ strip u) :
    ((validate_password_rules p).1 = false →
      set_password hash db u p salt =
        .error (.valueError (validate_password_rules p).2)) ∧
    ((validate_password_rules p).1 = true →
      set_password hash db u p salt = .ok (false, db)) := by
  constructor
  · intro hbad
    simp [set_password, hne, hbad]
  · intro hok
    have hpw : p ≠ "" := validate_true_ne_empty hok
    have hany : db.rows.any (fun a => a.username == strip u) = false := by
      rw [List.any_eq_false]
      intro a ha
      simp [habsent a ha]
    have hmap : db.rows.map (fun a =>
        if a.username == strip u then
          ⟨a.id, a.username, salt, hash p salt, a.is_admin, a.created_at⟩
        else a) = db.rows := by
      have hmap1 : db.rows.map (fun a =>
          if a.username == strip u then
            ⟨a.id, a.username, salt, hash p salt, a.is_admin, a.created_at⟩
          else a) = db.rows.map id :=
        List.map_congr_left (fun a ha => by simp [habsent a ha])
      rw [hmap1, List.map_id]
    have hstep : set_password hash db u p salt =
        .ok (db.rows.any (fun a => a.username == strip u),
          ⟨db.rows.map (fun a =>
            if a.username == strip u then
              ⟨a.id, a.username, salt, hash p salt, a.is_admin, a.created_at⟩
            else a), db.next_id⟩) := by
      simp only [set_password, if_neg hne, hok, hash_password, if_neg hpw]
      rfl
    rw [hstep, hany, hmap]

theorem set_password_policy_before_existence_witness :
    set_password demoHash dbAdmin "ghost" "x" 4 =
        .error (.valueError "Password must be at least 8 characters.") ∧
      set_password demoHash dbAdmin "ghost" "Valid123!" 4 = .ok (false, dbAdmin) :=
  ⟨(set_password_policy_before_existence demoHash dbAdmin "ghost" "x" 4 (by decide)
      (by decide)).1 (by decide),
   (set_password_policy_before_existence demoHash dbAdmin "ghost" "Valid123!" 4 (by decide)
      (by decide)).2 (by decide)⟩

end Hazelnut
